import Mathlib

/-!
Verification development for the YearlyReview repository.

Each section shallowly embeds one source module; definitions mirror the
TypeScript source (machine numbers become `Nat`/`ℚ`, fallible code returns
`Option`/`Except`, the D1 database becomes explicit lists of rows, the fetch
network becomes an oracle mapping request indices to outcomes).  ISO date
strings such as `2025-03-04` are zero-padded, so SQLite TEXT comparison and
`localeCompare` order them exactly as the lexicographic order on their
(year, month, day) components; where date arithmetic matters the embedding
therefore represents a date by that component triple.
-/

namespace YearlyReview

/-! ### Embedding of src/infrastructure/src/lib/openrouter.ts -/

/-- `const OPENROUTER_BASE_URL = 'https://openrouter.ai/api/v1'`. -/
def OPENROUTER_BASE_URL : String := "https://openrouter.ai/api/v1"

/-- `const MODEL = 'deepseek/deepseek-chat'`. -/
def MODEL : String := "deepseek/deepseek-chat"

/-- `interface OpenRouterConfig`.  The source defaults are
`maxRetries = 3` and `retryDelayMs = 2000`. -/
structure OpenRouterConfig where
  apiKey : String
  maxRetries : Nat
  retryDelayMs : Nat
deriving Repr, DecidableEq

/-- `interface ChatMessage`. -/
structure ChatMessage where
  role : String
  content : String
deriving Repr, DecidableEq

/-- The `message` object inside one element of `ChatResponse.choices`. -/
structure ChoiceMessage where
  content : String
deriving Repr, DecidableEq

/-- One element of `ChatResponse.choices`. -/
structure Choice where
  message : ChoiceMessage
deriving Repr, DecidableEq

/-- The `usage` object of `interface ChatResponse`. -/
structure Usage where
  prompt_tokens : Nat
  completion_tokens : Nat
  total_tokens : Nat
deriving Repr, DecidableEq

/-- `interface ChatResponse`. -/
structure ChatResponse where
  choices : List Choice
  usage : Usage
deriving Repr, DecidableEq

/-- The JSON body sent by `fetch` in `callOpenRouter`. -/
structure RequestBody where
  model : String
  messages : List ChatMessage
  temperature : ℚ
  response_format : String
deriving Repr, DecidableEq

/-- The HTTP request assembled by the `fetch` call in `callOpenRouter`. -/
structure HttpRequest where
  url : String
  method : String
  headers : List (String × String)
  body : RequestBody
deriving Repr, DecidableEq

/-- The request `callOpenRouter` sends on every attempt: headers and body are
built from constants, the message list and the API key only. -/
def buildChatRequest (messages : List ChatMessage) (apiKey : String) : HttpRequest :=
  { url := OPENROUTER_BASE_URL ++ "/chat/completions"
    method := "POST"
    headers :=
      [("Content-Type", "application/json"),
       ("Authorization", "Bearer " ++ apiKey),
       ("X-ZDR", "true"),
       ("HTTP-Referer", "https://reflections.local"),
       ("X-Title", "Reflections Pipeline")]
    body :=
      { model := MODEL
        messages := messages
        temperature := 3 / 10
        response_format := "json_object" } }

/-- Outcome of one `fetch`: an HTTP response with a status, a status text and
a parsed body, or a network error thrown by `fetch` itself. -/
inductive FetchOutcome where
  | http (status : Nat) (statusText : String) (respBody : ChatResponse)
  | netError (msg : String)
deriving Repr, DecidableEq

/-- `response.ok`: status in the range 200–299. -/
def respOk (status : Nat) : Bool := 200 ≤ status && status < 300

/-- Decidable equality for `Except`, used to evaluate call results on
concrete inputs. -/
instance {ε α : Type} [DecidableEq ε] [DecidableEq α] : DecidableEq (Except ε α) := fun a b =>
  match a, b with
  | .ok x, .ok y =>
    if h : x = y then isTrue (congrArg Except.ok h)
    else isFalse (fun hh => h (Except.ok.inj hh))
  | .error x, .error y =>
    if h : x = y then isTrue (congrArg Except.error h)
    else isFalse (fun hh => h (Except.error.inj hh))
  | .ok _, .error _ => isFalse (fun hh => Except.noConfusion hh)
  | .error _, .ok _ => isFalse (fun hh => Except.noConfusion hh)

/-- Trace of one `callOpenRouter` invocation: the final result, every HTTP
request sent, and every sleep performed (in milliseconds). -/
structure CallTrace where
  result : Except String String
  requests : List HttpRequest
  sleeps : List Nat
deriving Repr, DecidableEq

/-- The retry loop of `callOpenRouter`.  `oracle n` is the outcome of the
`n`-th `fetch`; `fuel` is the number of loop iterations remaining
(`maxRetries - attempt`).  On 429 the code sleeps `retryDelayMs * 2 ^ attempt`
and continues without recording an error; any thrown error (network failure,
non-ok status, missing `choices[0]`) is caught, recorded as `lastError`, and
also leads to a sleep and another iteration; when the loop ends the last
recorded error (or `'Max retries exceeded'`) is thrown. -/
def callFrom (oracle : Nat → FetchOutcome) (messages : List ChatMessage)
    (apiKey : String) (retryDelayMs : Nat) :
    Nat → Nat → Option String → CallTrace
  | _, 0, lastError =>
    { result := .error (lastError.getD "Max retries exceeded")
      requests := [], sleeps := [] }
  | attempt, fuel + 1, lastError =>
    let req := buildChatRequest messages apiKey
    match oracle attempt with
    | .netError msg =>
      let t := callFrom oracle messages apiKey retryDelayMs (attempt + 1) fuel (some msg)
      { result := t.result
        requests := req :: t.requests
        sleeps := retryDelayMs * 2 ^ attempt :: t.sleeps }
    | .http status statusText respBody =>
      if status = 429 then
        let t := callFrom oracle messages apiKey retryDelayMs (attempt + 1) fuel lastError
        { result := t.result
          requests := req :: t.requests
          sleeps := retryDelayMs * 2 ^ attempt :: t.sleeps }
      else if respOk status then
        match respBody.choices with
        | [] =>
          let t := callFrom oracle messages apiKey retryDelayMs (attempt + 1) fuel
            (some "TypeError: cannot read properties of undefined")
          { result := t.result
            requests := req :: t.requests
            sleeps := retryDelayMs * 2 ^ attempt :: t.sleeps }
        | choice :: _ =>
          { result := .ok choice.message.content
            requests := [req], sleeps := [] }
      else
        let t := callFrom oracle messages apiKey retryDelayMs (attempt + 1) fuel
          (some ("OpenRouter error: " ++ toString status ++ " " ++ statusText))
        { result := t.result
          requests := req :: t.requests
          sleeps := retryDelayMs * 2 ^ attempt :: t.sleeps }

/-- `export async function callOpenRouter(messages, config)`. -/
def callOpenRouter (oracle : Nat → FetchOutcome) (messages : List ChatMessage)
    (config : OpenRouterConfig) : CallTrace :=
  callFrom oracle messages config.apiKey config.retryDelayMs 0 config.maxRetries none

/-- The sleeps performed by `fuel` consecutive failing attempts starting at
index `attempt`: `retryDelayMs * 2 ^ attempt`, then
`retryDelayMs * 2 ^ (attempt + 1)`, and so on. -/
def backoffSleeps (retryDelayMs attempt : Nat) : Nat → List Nat
  | 0 => []
  | fuel + 1 => retryDelayMs * 2 ^ attempt :: backoffSleeps retryDelayMs (attempt + 1) fuel

/-! ### Dates

ISO `YYYY-MM-DD` strings are zero padded, so SQLite TEXT comparison orders
them exactly as the lexicographic order on the (year, month, day) triple;
a date is represented by that triple wherever the source compares or
computes with dates. -/

/-- An ISO `YYYY-MM-DD` date, represented by its components. -/
structure Ymd where
  year : Nat
  month : Nat
  day : Nat
deriving Repr, DecidableEq

/-- An ISO `YYYY-MM` month, represented by its components. -/
structure Ym where
  year : Nat
  month : Nat
deriving Repr, DecidableEq

/-- Lexicographic order on dates: the order SQLite TEXT comparison gives
zero-padded ISO date strings. -/
def ymdLe (a b : Ymd) : Bool :=
  decide (a.year < b.year ∨ (a.year = b.year ∧
    (a.month < b.month ∨ (a.month = b.month ∧ a.day ≤ b.day))))

/-- Strict lexicographic order on dates. -/
def ymdLt (a b : Ymd) : Bool :=
  decide (a.year < b.year ∨ (a.year = b.year ∧
    (a.month < b.month ∨ (a.month = b.month ∧ a.day < b.day))))

/-- The string `` `${month}-01` `` of `getWeeklySummariesForMonth`: the first
day of a month. -/
def firstOfMonth (m : Ym) : Ymd := ⟨m.year, m.month, 1⟩

/-- `function incrementMonth(month)` of src/infrastructure/src/lib/d1.ts:
`if (m === 12) return year+1 + '-01'; return year + '-' + pad(m+1)`. -/
def incrementMonth (m : Ym) : Ym :=
  if m.month = 12 then ⟨m.year + 1, 1⟩ else ⟨m.year, m.month + 1⟩

/-- `toString(n).padStart(2, '0')`. -/
def pad2 (n : Nat) : String :=
  if n < 10 then "0" ++ toString n else toString n

/-- Rendering of a `Ymd` back to its ISO string, used for key construction
such as `` `weekly-${summary.week_start}` ``. -/
def ymdToString (d : Ymd) : String :=
  toString d.year ++ "-" ++ pad2 d.month ++ "-" ++ pad2 d.day

/-! ### Embedding of src/infrastructure/src/schemas/types.ts -/

/-- `interface PersonMention`. -/
structure PersonMention where
  name : String
  relationship_type : String
  sentiment : String
  interaction_type : String
deriving Repr, DecidableEq

/-- `interface JournalExtraction`.  JavaScript `number` fields become `ℚ`,
`x | null` fields become `Option`. -/
structure JournalExtraction where
  date : String
  day_of_week : String
  word_count : ℚ
  mood_score : ℚ
  energy_level : ℚ
  happiness_indicators : List String
  distress_indicators : List String
  sleep_mentioned : Bool
  sleep_quality : Option ℚ
  sleep_notes : Option String
  hrt_mentioned : Bool
  hrt_notes : Option String
  medication_mentions : List String
  physical_health_notes : List String
  people_mentioned : List PersonMention
  family_dynamics_notes : Option String
  social_energy_spent : ℚ
  activities : List String
  major_events : List String
  work_notes : Option String
  creative_activities : List String
  dominant_themes : List String
  self_reflection_depth : ℚ
  future_oriented : Bool
  gratitude_expressed : Bool
  gender_identity_notes : Option String
  dysphoria_mentioned : Bool
  euphoria_mentioned : Bool
  name_usage : Option String
  key_quotes : List String
  summary : String
deriving Repr, DecidableEq

/-- `'improving' | 'declining' | 'stable' | 'volatile'`. -/
inductive MoodTrend where
  | improving
  | declining
  | stable
  | volatile
deriving Repr, DecidableEq

/-- One element of `WeeklySummary.people_seen`. -/
structure PersonSeen where
  name : String
  count : ℚ
  avg_sentiment : ℚ
deriving Repr, DecidableEq

/-- `interface WeeklySummary`; its `week_start` and `week_end` ISO strings
are represented by their component triples. -/
structure WeeklySummary where
  week_start : Ymd
  week_end : Ymd
  avg_mood : ℚ
  avg_energy : ℚ
  avg_sleep_quality : Option ℚ
  mood_trend : MoodTrend
  people_seen : List PersonSeen
  dominant_themes : List String
  notable_events : List String
  hrt_cycle_notes : Option String
  narrative_summary : String
deriving Repr, DecidableEq

/-! ### Embedding of src/infrastructure/src/lib/d1.ts

Each D1 table is a list of rows.  `INSERT OR REPLACE` deletes any row that
conflicts on the primary key `id` and then inserts the new row.  A
`*_json` column holds `JSON.stringify` of a plain record, which
`JSON.parse` round-trips, so the cell is modelled by the record value. -/

/-- A row of the `extractions` table (`id, date, day_of_week,
extraction_json`). -/
structure ExtractionRow where
  id : String
  date : String
  day_of_week : String
  extraction_json : JournalExtraction
deriving Repr, DecidableEq

/-- A row of the `weekly_summaries` table (`id, week_start, week_end,
summary_json`). -/
structure WeeklyRow where
  id : String
  week_start : Ymd
  week_end : Ymd
  summary_json : WeeklySummary
deriving Repr, DecidableEq

/-- A row of the `monthly_summaries` table; the payload column is kept
opaque. -/
structure MonthlyRow where
  id : String
  month : String
  summary_json : String
deriving Repr, DecidableEq

/-- A row of the `quarterly_notepads` table; the payload column is kept
opaque. -/
structure QuarterlyRow where
  id : String
  quarter : String
  notepad_json : String
deriving Repr, DecidableEq

/-- A row of the `synthesis` table; the payload column is kept opaque. -/
structure SynthesisRow where
  id : String
  synthesis_json : String
deriving Repr, DecidableEq

/-- `INSERT OR REPLACE`: rows conflicting with the new row on the primary
key are deleted, then the new row is inserted. -/
def insertOrReplaceBy {α : Type} (key : α → String) (t : List α) (r : α) : List α :=
  t.filter (fun x => decide (key x ≠ key r)) ++ [r]

/-- `export async function storeExtraction(db, date, extraction)`:
`INSERT OR REPLACE INTO extractions` with
`id = 'extraction-' + date`. -/
def storeExtraction (t : List ExtractionRow) (date : String)
    (extraction : JournalExtraction) : List ExtractionRow :=
  insertOrReplaceBy (fun r => r.id) t
    ⟨"extraction-" ++ date, date, extraction.day_of_week, extraction⟩

/-- `export async function getExtraction(db, date)`:
`SELECT extraction_json FROM extractions WHERE date = ?` followed by
`.first()` and `JSON.parse`. -/
def getExtraction (t : List ExtractionRow) (date : String) : Option JournalExtraction :=
  (t.find? (fun r => decide (r.date = date))).map (fun r => r.extraction_json)

/-- `export async function storeWeeklySummary(db, summary)`:
`INSERT OR REPLACE INTO weekly_summaries` with
`id = 'weekly-' + summary.week_start`. -/
def storeWeeklySummary (t : List WeeklyRow) (s : WeeklySummary) : List WeeklyRow :=
  insertOrReplaceBy (fun r => r.id) t
    ⟨"weekly-" ++ ymdToString s.week_start, s.week_start, s.week_end, s⟩

/-- Ordering of weekly rows by their `week_start` column: the `ORDER BY
week_start` of `getWeeklySummariesForMonth`. -/
def weeklyRowLe (a b : WeeklyRow) : Prop := ymdLe a.week_start b.week_start = true

instance : DecidableRel weeklyRowLe := fun a b =>
  inferInstanceAs (Decidable (ymdLe a.week_start b.week_start = true))

instance : IsTotal WeeklyRow weeklyRowLe :=
  ⟨by
    intro a b
    simp only [weeklyRowLe, ymdLe, decide_eq_true_eq]
    omega⟩

instance : IsTrans WeeklyRow weeklyRowLe :=
  ⟨by
    intro a b c hab hbc
    simp only [weeklyRowLe, ymdLe, decide_eq_true_eq] at *
    omega⟩

/-- `export async function getWeeklySummariesForMonth(db, month)`:
`startDate = month + '-01'`, `endDate = incrementMonth(month) + '-01'`,
then `SELECT summary_json FROM weekly_summaries WHERE week_start >= ? AND
week_start < ? ORDER BY week_start`, parsing each row. -/
def getWeeklySummariesForMonth (t : List WeeklyRow) (month : Ym) : List WeeklySummary :=
  let startDate := firstOfMonth month
  let endDate := firstOfMonth (incrementMonth month)
  (List.insertionSort weeklyRowLe
      (t.filter (fun r => ymdLe startDate r.week_start && ymdLt r.week_start endDate))).map
    (fun r => r.summary_json)

/-- Invariant of the `extractions` table: every row was written by
`storeExtraction`, so its primary key is `'extraction-' + date`. -/
def extractionsWF (t : List ExtractionRow) : Prop :=
  ∀ r ∈ t, r.id = "extraction-" ++ r.date

/-- Invariant of the `weekly_summaries` table: every row was written by
`storeWeeklySummary`, so its `week_start` column equals the `week_start`
field of its serialized summary. -/
def weeklyWF (t : List WeeklyRow) : Prop :=
  ∀ r ∈ t, r.week_start = r.summary_json.week_start

/-! ### Embedding of src/infrastructure/src/coordinator.ts

The Durable Object storage and the D1 database are separate stores: the
coordinator's `this.state.storage` holds at most the single key
`'pipeline'`, while artifact rows live in D1 tables.  Each handler maps a
context (storage plus database) to an HTTP response and a new context. -/

/-- `PipelineState.phase`. -/
inductive Phase where
  | idle
  | extracting
  | aggregating
  | complete
deriving Repr, DecidableEq

/-- `PipelineState.currentTier`. -/
inductive Tier where
  | weekly
  | monthly
  | quarterly
  | synthesis
deriving Repr, DecidableEq

/-- `interface PipelineState` of coordinator.ts. -/
structure PipelineState where
  phase : Phase
  totalEntries : Nat
  processedEntries : Nat
  currentTier : Option Tier
  startedAt : Option String
  completedAt : Option String
deriving Repr, DecidableEq

/-- The Durable Object storage: the coordinator only ever uses the key
`'pipeline'`, so the store is that single optional value. -/
structure DurableStorage where
  pipeline : Option PipelineState
deriving Repr, DecidableEq

/-- The five artifact tables of the D1 database. -/
structure D1Tables where
  extractions : List ExtractionRow
  weekly_summaries : List WeeklyRow
  monthly_summaries : List MonthlyRow
  quarterly_notepads : List QuarterlyRow
  synthesis : List SynthesisRow
deriving Repr, DecidableEq

/-- The coordinator's reachable state: its Durable Object storage plus the
D1 database reachable through `env.DB`. -/
structure CoordinatorCtx where
  storage : DurableStorage
  db : D1Tables
deriving Repr, DecidableEq

/-- The JSON bodies the coordinator's handlers produce. -/
inductive ResponseBody where
  | started
  | reset
  | pipeline (s : PipelineState)
  | idleDefault
  | notFound
deriving Repr, DecidableEq

/-- An HTTP response of the coordinator. -/
structure CoordResponse where
  status : Nat
  body : ResponseBody
deriving Repr, DecidableEq

/-- The phase a status response reports: `getStatus` serializes either the
stored `PipelineState` or the literal object with `phase: 'idle'`. -/
def reportedPhase : ResponseBody → Option Phase
  | .pipeline s => some s.phase
  | .idleDefault => some .idle
  | _ => none

/-- `private async startPipeline()`: the body is a TODO stub that reads and
writes nothing and unconditionally answers `{ status: 'started' }`. -/
def startPipeline (c : CoordinatorCtx) : CoordResponse × CoordinatorCtx :=
  (⟨200, .started⟩, c)

/-- `private async getStatus()`: reads `storage.get('pipeline')` and
serializes `state || { phase: 'idle' }`. -/
def getStatus (c : CoordinatorCtx) : CoordResponse × CoordinatorCtx :=
  (⟨200, match c.storage.pipeline with
         | some s => .pipeline s
         | none => .idleDefault⟩, c)

/-- `private async resetPipeline()`: `storage.deleteAll()` (the Durable
Object storage only; D1 is not touched) and answer `{ status: 'reset' }`. -/
def resetPipeline (c : CoordinatorCtx) : CoordResponse × CoordinatorCtx :=
  (⟨200, .reset⟩, { c with storage := ⟨none⟩ })

/-- `async fetch(request)`: the path switch of the coordinator. -/
def coordinatorFetch (path : String) (c : CoordinatorCtx) : CoordResponse × CoordinatorCtx :=
  if path = "/api/start" then startPipeline c
  else if path = "/api/status" then getStatus c
  else if path = "/api/reset" then resetPipeline c
  else (⟨404, .notFound⟩, c)

/-! ### Embedding of src/infrastructure/src/extractor.ts -/

/-- `interface ExtractionJob`. -/
structure ExtractionJob where
  type : String
  date : String
  r2Key : String
  contentHash : String
deriving Repr, DecidableEq

/-- The state an extraction worker can reach: the D1 database and the KV
cache. -/
structure WorkerEnv where
  db : D1Tables
  cache : List (String × String)
deriving Repr, DecidableEq

/-- `export async function handleExtraction(message, env)`: the body is a
TODO stub; it only logs `'Processing extraction for ' + job.date`, touching
neither the database nor the cache, and never signalling failure. -/
def handleExtraction (job : ExtractionJob) (env : WorkerEnv) : WorkerEnv × List String :=
  (env, ["Processing extraction for " ++ job.date])

/-! ### Embedding of src/scripts/preprocess.ts

Only the manifest-building pipeline is embedded: file-content cleaning,
word counting and SHA-256 hashing do not influence entry dates, so a source
file enters the embedding as its basename, its already-parsed frontmatter
`date` field, and its computed word count and content hash. -/

/-- `function extractDateFromFilename(filename)`: the regular expression
`^(\d{4}-\d{2}-\d{2})\.md$`. -/
def extractDateFromFilename (filename : String) : Option String :=
  match filename.data with
  | [y1, y2, y3, y4, h1, m1, m2, h2, d1, d2, dot, c1, c2] =>
    if y1.isDigit && y2.isDigit && y3.isDigit && y4.isDigit &&
        h1 = '-' && m1.isDigit && m2.isDigit && h2 = '-' &&
        d1.isDigit && d2.isDigit && dot = '.' && c1 = 'm' && c2 = 'd' then
      some (String.mk [y1, y2, y3, y4, h1, m1, m2, h2, d1, d2])
    else none
  | _ => none

/-- Numeric value of a decimal digit character. -/
def digitVal (c : Char) : Nat := c.toNat - '0'.toNat

/-- The Gregorian leap-year rule, used by JavaScript `Date` validity. -/
def isLeapYear (y : Nat) : Bool :=
  decide ((y % 4 = 0 ∧ y % 100 ≠ 0) ∨ y % 400 = 0)

/-- Days in a month, used by JavaScript `Date` validity. -/
def daysInMonth (y m : Nat) : Nat :=
  if m = 2 then (if isLeapYear y then 29 else 28)
  else if m = 4 ∨ m = 6 ∨ m = 9 ∨ m = 11 then 30
  else 31

/-- `function isValidDate(dateStr)`: the format check
`^\d{4}-\d{2}-\d{2}$` plus `new Date(dateStr)` producing a real date, which
for an ISO string means in-range month and day components. -/
def isValidDate (s : String) : Bool :=
  match s.data with
  | [y1, y2, y3, y4, h1, m1, m2, h2, d1, d2] =>
    if y1.isDigit && y2.isDigit && y3.isDigit && y4.isDigit &&
        h1 = '-' && m1.isDigit && m2.isDigit && h2 = '-' &&
        d1.isDigit && d2.isDigit then
      let y := ((digitVal y1 * 10 + digitVal y2) * 10 + digitVal y3) * 10 + digitVal y4
      let m := digitVal m1 * 10 + digitVal m2
      let d := digitVal d1 * 10 + digitVal d2
      decide (1 ≤ m ∧ m ≤ 12 ∧ 1 ≤ d ∧ d ≤ daysInMonth y m)
    else false
  | _ => false

/-- One input journal file as `processEntry` sees it: its basename, its
path relative to the project root, the parsed frontmatter `date` value when
present and non-empty, and its content metrics (word count and content
hash are computed from the body and are independent of the date logic). -/
structure SourceFile where
  filename : String
  originalPath : String
  frontmatterDate : Option String
  wordCount : Nat
  contentHash : String
deriving Repr, DecidableEq

/-- The date-bearing part of `interface ProcessedEntry`. -/
structure ProcessedEntry where
  date : String
  originalPath : String
  wordCount : Nat
  contentHash : String
deriving Repr, DecidableEq

/-- `function processEntry(filePath, baseDir)`: the date is the filename
date when the filename matches `YYYY-MM-DD.md`; otherwise the first ten
characters of the frontmatter date when one is present; entries without a
valid date are skipped (`return null`). -/
def processEntry (src : SourceFile) : Option ProcessedEntry :=
  let filenameDate := extractDateFromFilename src.filename
  let finalDate : Option String :=
    match filenameDate with
    | some fd => some fd
    | none => src.frontmatterDate.map (fun s => s.take 10)
  match finalDate with
  | none => none
  | some d =>
    if isValidDate d then some ⟨d, src.originalPath, src.wordCount, src.contentHash⟩
    else none

/-- `interface ManifestEntry` of preprocess.ts. -/
structure ManifestEntry where
  date : String
  originalPath : String
  r2Key : String
  wordCount : Nat
  contentHash : String
deriving Repr, DecidableEq

/-- Lexicographic code-point comparison of character lists: what
`localeCompare` computes on the ASCII date strings at hand. -/
def charListLe : List Char → List Char → Bool
  | [], _ => true
  | _ :: _, [] => false
  | a :: as, b :: bs =>
    if a.toNat < b.toNat then true
    else if b.toNat < a.toNat then false
    else charListLe as bs

/-- Lexicographic code-point comparison of strings. -/
def stringLe (a b : String) : Bool := charListLe a.data b.data

/-- Ordering of processed entries by date string:
`(a, b) => a.date.localeCompare(b.date)`, which for ASCII date strings is
lexicographic string order. -/
def entryDateLe (a b : ProcessedEntry) : Prop := stringLe a.date b.date = true

instance : DecidableRel entryDateLe := fun a b =>
  inferInstanceAs (Decidable (stringLe a.date b.date = true))

/-- The manifest-entry pipeline of `main()`:
`processedEntries = files.filterMap(processEntry)` (skipped files omitted),
`processedEntries.sort((a, b) => a.date.localeCompare(b.date))` (a stable
sort, embedded as insertion sort), then the per-entry map building
`manifestEntries` with `r2Key = 'journals/' + date + '.md'`. -/
def buildManifestEntries (files : List SourceFile) : List ManifestEntry :=
  let processedEntries := files.filterMap processEntry
  let sorted := List.insertionSort entryDateLe processedEntries
  sorted.map (fun e =>
    ⟨e.date, e.originalPath, "journals/" ++ e.date ++ ".md", e.wordCount, e.contentHash⟩)

/-! ### Concrete inputs used to evaluate the embeddings -/

/-- An empty chat-completion body (no choices), for responses whose body is
never read. -/
def emptyChatResponse : ChatResponse := ⟨[], ⟨0, 0, 0⟩⟩

/-- A successful chat-completion body whose first choice says `hello`. -/
def helloChatResponse : ChatResponse := ⟨[⟨⟨"hello"⟩⟩], ⟨10, 20, 30⟩⟩

/-- A provider that always answers HTTP 400. -/
def oracle400 : Nat → FetchOutcome := fun _ => .http 400 "Bad Request" emptyChatResponse

/-- A provider that always answers HTTP 429. -/
def oracle429 : Nat → FetchOutcome :=
  fun _ => .http 429 "Too Many Requests" emptyChatResponse

/-- A provider that answers HTTP 429 three times and then succeeds. -/
def oracle429x3 : Nat → FetchOutcome := fun n =>
  if n < 3 then .http 429 "Too Many Requests" emptyChatResponse
  else .http 200 "OK" helloChatResponse

/-- A provider that succeeds immediately. -/
def oracleOk : Nat → FetchOutcome := fun _ => .http 200 "OK" helloChatResponse

/-- The source defaults: `maxRetries = 3`, `retryDelayMs = 2000`. -/
def defaultConfig : OpenRouterConfig := ⟨"key", 3, 2000⟩

/-- A sample extraction record within all schema bounds. -/
def sampleExtraction : JournalExtraction :=
  ⟨"2025-03-04", "Tuesday", 100, 7, 6, [], [], false, none, none, false, none, [], [], [],
   none, 5, [], [], none, [], ["reflection"], 5, false, false, none, false, false, none,
   [], "A calm day."⟩

/-- A second sample extraction for the same date, with a different mood
score. -/
def sampleExtraction2 : JournalExtraction :=
  { sampleExtraction with mood_score := 9 }

/-- A sample weekly summary whose seven-day window starts 2024-12-30 and
straddles the 2024/2025 year boundary. -/
def sampleWeekly : WeeklySummary :=
  ⟨⟨2024, 12, 30⟩, ⟨2025, 1, 5⟩, 6, 5, none, .stable, [], ["rest"], [], none, "Quiet week."⟩

/-- A weekly-summaries table holding `sampleWeekly`. -/
def sampleWeeklyTable : List WeeklyRow :=
  [⟨"weekly-2024-12-30", ⟨2024, 12, 30⟩, ⟨2025, 1, 5⟩, sampleWeekly⟩]

/-- An empty D1 database. -/
def db0 : D1Tables := ⟨[], [], [], [], []⟩

/-- A coordinator context whose stored pipeline state is mid-extraction:
the situation in which `start` must be rejected. -/
def extractingCtx : CoordinatorCtx :=
  ⟨⟨some ⟨.extracting, 650, 10, none, some "2025-01-05T00:00:00Z", none⟩⟩, db0⟩

/-- An extraction job for 2025-03-04. -/
def c4Job : ExtractionJob :=
  ⟨"extraction", "2025-03-04", "journals/2025-03-04.md", "abcd1234efgh5678"⟩

/-- A worker environment over the empty database. -/
def emptyWorkerEnv : WorkerEnv := ⟨db0, []⟩

/-- Two input files from different directories whose filenames carry the
same date. -/
def dupDateFiles : List SourceFile :=
  [⟨"2024-05-05.md", "Journal/2024/2024-05-05.md", none, 120, "aaaa1111bbbb2222"⟩,
   ⟨"2024-05-05.md", "Journal/2024/May/2024-05-05.md", none, 80, "cccc3333dddd4444"⟩]

/-- Two input files with distinct dates. -/
def distinctDateFiles : List SourceFile :=
  [⟨"2024-05-06.md", "Journal/2024/2024-05-06.md", none, 90, "eeee5555ffff6666"⟩,
   ⟨"2024-05-05.md", "Journal/2024/2024-05-05.md", none, 120, "aaaa1111bbbb2222"⟩]

/-! ### Helper lemmas -/

/-- `charListLe` is total. -/
lemma charListLe_total : ∀ as bs : List Char, charListLe as bs = true ∨ charListLe bs as = true := by
  intro as
  induction as with
  | nil => intro bs; left; simp [charListLe]
  | cons a as ih =>
    intro bs
    cases bs with
    | nil => right; simp [charListLe]
    | cons b bs =>
      by_cases h1 : a.toNat < b.toNat
      · left; simp [charListLe, h1]
      · by_cases h2 : b.toNat < a.toNat
        · right; simp [charListLe, h1, h2]
        · rcases ih bs with h | h
          · left; simp [charListLe, h1, h2, h]
          · right; simp [charListLe, h1, h2, h]

/-- `charListLe` is transitive. -/
lemma charListLe_trans : ∀ as bs cs : List Char, charListLe as bs = true →
    charListLe bs cs = true → charListLe as cs = true := by
  intro as
  induction as with
  | nil => intro bs cs _ _; simp [charListLe]
  | cons a as ih =>
    intro bs cs hab hbc
    cases bs with
    | nil => simp [charListLe] at hab
    | cons b bs =>
      cases cs with
      | nil => simp [charListLe] at hbc
      | cons c cs =>
        simp only [charListLe] at hab hbc ⊢
        by_cases hba : b.toNat < a.toNat
        · simp [show ¬ a.toNat < b.toNat by omega, hba] at hab
        · by_cases hcb : c.toNat < b.toNat
          · simp [show ¬ b.toNat < c.toNat by omega, hcb] at hbc
          · have hac : ¬ c.toNat < a.toNat := by omega
            by_cases hca : a.toNat < c.toNat
            · simp [hca]
            · have h1 : ¬ a.toNat < b.toNat := by omega
              have h2 : ¬ b.toNat < c.toNat := by omega
              simp only [h1, if_false, hba, if_neg] at hab
              simp only [h2, if_false, hcb, if_neg] at hbc
              simpa [hca, hac] using ih bs cs hab hbc

instance : IsTotal ProcessedEntry entryDateLe :=
  ⟨by
    intro a b
    exact charListLe_total a.date.data b.date.data⟩

instance : IsTrans ProcessedEntry entryDateLe :=
  ⟨by
    intro a b c hab hbc
    exact charListLe_trans a.date.data b.date.data c.date.data hab hbc⟩

/-- `backoffSleeps` is the exponential-backoff series written as a map over
attempt indices. -/
lemma backoffSleeps_eq_map (r : Nat) :
    ∀ fuel attempt, backoffSleeps r attempt fuel =
      (List.range fuel).map (fun i => r * 2 ^ (attempt + i)) := by
  intro fuel
  induction fuel with
  | zero => intro attempt; simp [backoffSleeps]
  | succ n ih =>
    intro attempt
    rw [backoffSleeps, ih (attempt + 1), List.range_succ_eq_map, List.map_cons,
      List.map_map]
    refine congrArg₂ List.cons (by rw [Nat.add_zero]) ?_
    apply List.map_congr_left
    intro i _
    have : attempt + 1 + i = attempt + Nat.succ i := by omega
    simp [Function.comp, this]

/-- A provider answering a fixed non-429, non-ok status makes the loop run
through its whole budget, sleeping each time, and finally propagate the
recorded `OpenRouter error`. -/
lemma callFrom_const_fail (status : Nat) (stx : String) (b : ChatResponse)
    (messages : List ChatMessage) (apiKey : String) (retryDelayMs : Nat)
    (h429 : status ≠ 429) (hok : respOk status = false) :
    ∀ fuel attempt lastErr,
      callFrom (fun _ => .http status stx b) messages apiKey retryDelayMs attempt
          (fuel + 1) lastErr =
        ⟨.error ("OpenRouter error: " ++ toString status ++ " " ++ stx),
         List.replicate (fuel + 1) (buildChatRequest messages apiKey),
         backoffSleeps retryDelayMs attempt (fuel + 1)⟩ := by
  intro fuel
  induction fuel with
  | zero =>
    intro attempt lastErr
    simp [callFrom, h429, hok, backoffSleeps]
  | succ n ih =>
    intro attempt lastErr
    rw [callFrom]
    simp only [h429, hok, if_false, Bool.false_eq_true, if_neg, ite_false]
    rw [ih (attempt + 1) (some ("OpenRouter error: " ++ toString status ++ " " ++ stx))]
    simp [backoffSleeps, List.replicate_succ]

/-- A provider answering 429 forever: every attempt of the budget is
consumed, each with an exponential-backoff sleep, no error is recorded, and
the call ends with `Max retries exceeded`. -/
lemma callFrom_const_429 (stx : String) (b : ChatResponse)
    (messages : List ChatMessage) (apiKey : String) (retryDelayMs : Nat) :
    ∀ fuel attempt lastErr,
      callFrom (fun _ => .http 429 stx b) messages apiKey retryDelayMs attempt
          fuel lastErr =
        ⟨.error (lastErr.getD "Max retries exceeded"),
         List.replicate fuel (buildChatRequest messages apiKey),
         backoffSleeps retryDelayMs attempt fuel⟩ := by
  intro fuel
  induction fuel with
  | zero => intro attempt lastErr; simp [callFrom, backoffSleeps]
  | succ n ih =>
    intro attempt lastErr
    rw [callFrom]
    simp only [if_true, ite_true, reduceIte]
    rw [ih (attempt + 1) lastErr]
    simp [backoffSleeps, List.replicate_succ]

/-- Every request of a call trace is the one `buildChatRequest` assembles
from the message list and the API key. -/
lemma callFrom_requests (oracle : Nat → FetchOutcome) (messages : List ChatMessage)
    (apiKey : String) (retryDelayMs : Nat) :
    ∀ fuel attempt lastErr req,
      req ∈ (callFrom oracle messages apiKey retryDelayMs attempt fuel lastErr).requests →
        req = buildChatRequest messages apiKey := by
  intro fuel
  induction fuel with
  | zero => intro attempt lastErr req h; simp [callFrom] at h
  | succ n ih =>
    intro attempt lastErr req h
    rw [callFrom] at h
    cases hOra : oracle attempt with
    | netError msg =>
      rw [hOra] at h
      simp only [List.mem_cons] at h
      rcases h with h | h
      · exact h
      · exact ih (attempt + 1) (some msg) req h
    | http status stx b =>
      rw [hOra] at h
      by_cases h429 : status = 429
      · simp only [h429, ite_true, reduceIte, List.mem_cons] at h
        rcases h with h | h
        · exact h
        · exact ih (attempt + 1) lastErr req h
      · by_cases hok : respOk status
        · cases hch : b.choices with
          | nil =>
            simp only [h429, ite_false, if_neg, hok, ite_true, reduceIte, hch,
              List.mem_cons, List.not_mem_nil, or_false] at h
            rcases h with h | h
            · exact h
            · exact ih (attempt + 1)
                (some "TypeError: cannot read properties of undefined") req h
          | cons c rest =>
            simp only [h429, ite_false, if_neg, hok, ite_true, reduceIte, hch,
              List.mem_cons, List.not_mem_nil, or_false, List.mem_singleton] at h
            exact h
        · simp [h429, hok, List.mem_cons] at h
          rcases h with h1 | h1
          · exact h1
          · exact ih (attempt + 1)
              (some ("OpenRouter error: " ++ toString status ++ " " ++ stx)) req h1

/-- A call only returns `.ok s` when some fetch produced an ok status whose
body's first choice carries `s` as its message content. -/
lemma callFrom_ok (oracle : Nat → FetchOutcome) (messages : List ChatMessage)
    (apiKey : String) (retryDelayMs : Nat) :
    ∀ fuel attempt lastErr s,
      (callFrom oracle messages apiKey retryDelayMs attempt fuel lastErr).result = .ok s →
        ∃ n status stx b choice rest, oracle n = .http status stx b ∧
          respOk status = true ∧ b.choices = choice :: rest ∧
          s = choice.message.content := by
  intro fuel
  induction fuel with
  | zero => intro attempt lastErr s h; simp [callFrom] at h
  | succ n ih =>
    intro attempt lastErr s h
    rw [callFrom] at h
    cases hOra : oracle attempt with
    | netError msg =>
      rw [hOra] at h
      exact ih (attempt + 1) (some msg) s h
    | http status stx b =>
      rw [hOra] at h
      by_cases h429 : status = 429
      · simp only [h429, ite_true, reduceIte] at h
        exact ih (attempt + 1) lastErr s h
      · by_cases hok : respOk status
        · cases hch : b.choices with
          | nil =>
            simp only [h429, ite_false, if_neg, hok, ite_true, reduceIte, hch] at h
            exact ih (attempt + 1)
              (some "TypeError: cannot read properties of undefined") s h
          | cons c rest =>
            simp only [h429, ite_false, if_neg, hok, ite_true, reduceIte, hch,
              Except.ok.injEq] at h
            exact ⟨attempt, status, stx, b, c, rest, hOra, by simpa using hok, hch, h.symm⟩
        · simp only [h429, hok, ite_false, if_neg, reduceIte] at h
          exact ih (attempt + 1)
            (some ("OpenRouter error: " ++ toString status ++ " " ++ stx)) s h

/-- `find?` skips a prefix on which the predicate is everywhere false. -/
lemma find?_append_of_none {α : Type} (p : α → Bool) (l₁ l₂ : List α)
    (h : ∀ x ∈ l₁, p x = false) : (l₁ ++ l₂).find? p = l₂.find? p := by
  induction l₁ with
  | nil => simp
  | cons a l ih =>
    have ha := h a (List.mem_cons_self a l)
    rw [List.cons_append, List.find?_cons_of_neg _ (by simp [ha]),
      ih (fun x hx => h x (List.mem_cons_of_mem a hx))]

/-- Rows surviving the `INSERT OR REPLACE` deletion for date `d` cannot
carry date `d`, by the key invariant. -/
lemma kept_not_date (t : List ExtractionRow) (d : String) (hwf : extractionsWF t) :
    ∀ x ∈ t.filter (fun x => decide (x.id ≠ "extraction-" ++ d)),
      (fun r => decide (r.date = d)) x = false := by
  intro x hx
  obtain ⟨hxt, hpx⟩ := List.mem_filter.mp hx
  simp only [decide_eq_true_eq] at hpx
  simp only [decide_eq_false_iff_not]
  intro hdate
  exact hpx (by rw [hwf x hxt, hdate])

/-- Reading back the date just stored returns the stored extraction. -/
lemma getExtraction_store (t : List ExtractionRow) (d : String)
    (e : JournalExtraction) (hwf : extractionsWF t) :
    getExtraction (storeExtraction t d e) d = some e := by
  unfold getExtraction storeExtraction insertOrReplaceBy
  rw [find?_append_of_none _ _ _ (kept_not_date t d hwf)]
  rw [List.find?_cons_of_pos _ (by simp)]
  rfl

/-- `storeExtraction` maintains the key invariant of the table. -/
lemma extractionsWF_store (t : List ExtractionRow) (d : String)
    (e : JournalExtraction) (hwf : extractionsWF t) :
    extractionsWF (storeExtraction t d e) := by
  intro r hr
  simp only [storeExtraction, insertOrReplaceBy, List.mem_append,
    List.mem_singleton] at hr
  rcases hr with hr | hr
  · exact hwf r (List.mem_filter.mp hr).1
  · subst hr; rfl

/-- After a store, exactly one row carries the stored date. -/
lemma countP_store (t : List ExtractionRow) (d : String)
    (e : JournalExtraction) (hwf : extractionsWF t) :
    List.countP (fun r => decide (r.date = d)) (storeExtraction t d e) = 1 := by
  simp only [storeExtraction, insertOrReplaceBy, List.countP_append]
  have h0 : List.countP (fun r => decide (r.date = d))
      (t.filter (fun x => decide (x.id ≠ "extraction-" ++ d))) = 0 := by
    refine List.countP_eq_zero.mpr ?_
    intro a ha
    simp only [kept_not_date t d hwf a ha, Bool.false_eq_true, not_false_iff]
  rw [h0]
  simp [List.countP_cons]

/-! ### Claims -/

/-- Claim C1, amended: when the provider answers a 4xx status other than
429, `callOpenRouter` does not fail immediately; it records the error,
sleeps, and retries until it has sent `maxRetries` requests, and only then
propagates the recorded `OpenRouter error` to the caller. -/
theorem c1_gateway_4xx_retried (status : Nat) (stx : String) (b : ChatResponse)
    (messages : List ChatMessage) (apiKey : String) (retryDelayMs maxRetries : Nat)
    (h429 : status ≠ 429) (hok : respOk status = false) (hpos : 0 < maxRetries) :
    (callOpenRouter (fun _ => .http status stx b) messages
        ⟨apiKey, maxRetries, retryDelayMs⟩).result =
      .error ("OpenRouter error: " ++ toString status ++ " " ++ stx) ∧
    (callOpenRouter (fun _ => .http status stx b) messages
        ⟨apiKey, maxRetries, retryDelayMs⟩).requests.length = maxRetries := by
  cases maxRetries with
  | zero => omega
  | succ k =>
    have h := callFrom_const_fail status stx b messages apiKey retryDelayMs h429 hok k 0 none
    simp only [callOpenRouter]
    rw [h]
    simp

/-- Evaluation of `c1_gateway_4xx_retried` at a provider that always
answers HTTP 400, with the source's default configuration. -/
theorem c1_gateway_4xx_retried_witness :
    (callOpenRouter oracle400 [] defaultConfig).result =
      .error ("OpenRouter error: " ++ toString 400 ++ " " ++ "Bad Request") ∧
    (callOpenRouter oracle400 [] defaultConfig).requests.length = 3 :=
  c1_gateway_4xx_retried 400 "Bad Request" emptyChatResponse [] "key" 2000 3
    (by decide) (by decide) (by decide)

/-- Claim C1 as stated is false: a provider answering a constant HTTP 400
receives three requests for one call, not one. -/
theorem c1_counterexample :
    (callOpenRouter oracle400 [] defaultConfig).requests.length = 3 ∧
    ¬(callOpenRouter oracle400 [] defaultConfig).requests.length = 1 := by decide

/-- Claim C3, amended: on HTTP 429 the gateway sleeps
`retryDelayMs * 2 ^ attempt` (base 2 s by default, with no cap) and
retries, but every 429 occurrence consumes one attempt of the single retry
budget `maxRetries`; a call whose attempts all hit 429 sends exactly
`maxRetries` requests, sleeps the full exponential series, and fails with
`Max retries exceeded`. -/
theorem c3_rate_limit_backoff (stx : String) (b : ChatResponse)
    (messages : List ChatMessage) (apiKey : String) (retryDelayMs maxRetries : Nat) :
    callOpenRouter (fun _ => .http 429 stx b) messages ⟨apiKey, maxRetries, retryDelayMs⟩ =
      ⟨.error "Max retries exceeded",
       List.replicate maxRetries (buildChatRequest messages apiKey),
       (List.range maxRetries).map (fun i => retryDelayMs * 2 ^ i)⟩ := by
  have h := callFrom_const_429 stx b messages apiKey retryDelayMs maxRetries 0 none
  simp only [callOpenRouter]
  rw [h, backoffSleeps_eq_map]
  simp

/-- Claim C3 as stated is false: with the default budget of 3, three 429
responses exhaust the call even though a success was available on the next
request, and with a budget of 6 the sixth sleep is 64 s, above the claimed
60 s cap. -/
theorem c3_counterexample :
    (callOpenRouter oracle429x3 [] defaultConfig).result =
      .error "Max retries exceeded" ∧
    64000 ∈ (callOpenRouter oracle429 [] ⟨"key", 6, 2000⟩).sleeps ∧
    ¬64000 ≤ 60000 := by decide

/-- Claim C5: every request sent by `callOpenRouter` carries the
zero-data-retention header `X-ZDR: true`, the enforced JSON response mode,
and temperature 0.3; and a successful call returns exactly
`choices[0].message.content` of an ok response body. -/
theorem c5_request_headers_and_content (oracle : Nat → FetchOutcome)
    (messages : List ChatMessage) (config : OpenRouterConfig) :
    (∀ req ∈ (callOpenRouter oracle messages config).requests,
      ("X-ZDR", "true") ∈ req.headers ∧
      req.body.response_format = "json_object" ∧
      req.body.temperature = 3 / 10) ∧
    (∀ s, (callOpenRouter oracle messages config).result = .ok s →
      ∃ n status stx b choice rest, oracle n = .http status stx b ∧
        respOk status = true ∧ b.choices = choice :: rest ∧
        s = choice.message.content) := by
  constructor
  · intro req hreq
    have hr := callFrom_requests oracle messages config.apiKey config.retryDelayMs
      config.maxRetries 0 none req hreq
    subst hr
    exact ⟨by simp [buildChatRequest], rfl, rfl⟩
  · intro s hs
    exact callFrom_ok oracle messages config.apiKey config.retryDelayMs
      config.maxRetries 0 none s hs

/-- Evaluation of `c5_request_headers_and_content` at a provider that
succeeds immediately with content `hello`. -/
theorem c5_request_headers_and_content_witness :
    ("X-ZDR", "true") ∈ (buildChatRequest [] "key").headers ∧
    (∃ n status stx b choice rest, oracleOk n = FetchOutcome.http status stx b ∧
      respOk status = true ∧ b.choices = choice :: rest ∧
      "hello" = choice.message.content) := by
  have h := c5_request_headers_and_content oracleOk [] defaultConfig
  refine ⟨?_, h.2 "hello" (by decide)⟩
  have hreqs : (callOpenRouter oracleOk [] defaultConfig).requests =
      [buildChatRequest [] "key"] := rfl
  exact (h.1 _ (by rw [hreqs]; exact List.mem_singleton_self _)).1

/-- Claim C7: storing an extraction and reading the same date back returns
it; the store keeps the table's key invariant; it is an upsert, so the
table holds exactly one row for that date, and a second store under the
same date overwrites the first. -/
theorem c7_store_get_extraction (t : List ExtractionRow) (d : String)
    (e e2 : JournalExtraction) (hwf : extractionsWF t) :
    getExtraction (storeExtraction t d e) d = some e ∧
    extractionsWF (storeExtraction t d e) ∧
    List.countP (fun r => decide (r.date = d)) (storeExtraction t d e) = 1 ∧
    getExtraction (storeExtraction (storeExtraction t d e) d e2) d = some e2 ∧
    List.countP (fun r => decide (r.date = d))
      (storeExtraction (storeExtraction t d e) d e2) = 1 := by
  have hwf2 := extractionsWF_store t d e hwf
  exact ⟨getExtraction_store t d e hwf, hwf2, countP_store t d e hwf,
    getExtraction_store _ d e2 hwf2, countP_store _ d e2 hwf2⟩

/-- Evaluation of `c7_store_get_extraction` on the empty table with two
stores for 2025-03-04. -/
theorem c7_store_get_extraction_witness :
    getExtraction (storeExtraction [] "2025-03-04" sampleExtraction) "2025-03-04" =
      some sampleExtraction ∧
    getExtraction (storeExtraction (storeExtraction [] "2025-03-04" sampleExtraction)
        "2025-03-04" sampleExtraction2) "2025-03-04" = some sampleExtraction2 := by
  have h := c7_store_get_extraction [] "2025-03-04" sampleExtraction sampleExtraction2
    (by intro r hr; simp at hr)
  exact ⟨h.1, h.2.2.2.1⟩

/-- Claim C6: `getWeeklySummariesForMonth m` returns exactly the stored
weekly summaries whose `week_start` lies in `[m-01, next-month-01)`, in
ascending `week_start` order; `incrementMonth` wraps December to January of
the next year; and every valid date belongs to the interval of exactly one
month, namely its own. -/
theorem c6_weekly_summaries_for_month (t : List WeeklyRow) (m : Ym) (hwf : weeklyWF t) :
    (∀ s, s ∈ getWeeklySummariesForMonth t m ↔
      (∃ r ∈ t, r.summary_json = s) ∧
      ymdLe (firstOfMonth m) s.week_start = true ∧
      ymdLt s.week_start (firstOfMonth (incrementMonth m)) = true) ∧
    List.Pairwise (fun s1 s2 : WeeklySummary =>
      ymdLe s1.week_start s2.week_start = true) (getWeeklySummariesForMonth t m) ∧
    (∀ y, incrementMonth ⟨y, 12⟩ = ⟨y + 1, 1⟩) ∧
    (∀ (d : Ymd) (m' : Ym), 1 ≤ d.month → d.month ≤ 12 → 1 ≤ d.day →
      1 ≤ m'.month → m'.month ≤ 12 →
      ((ymdLe (firstOfMonth m') d = true ∧
        ymdLt d (firstOfMonth (incrementMonth m')) = true) ↔
        m' = ⟨d.year, d.month⟩)) := by
  refine ⟨?_, ?_, ?_, ?_⟩
  · intro s
    simp only [getWeeklySummariesForMonth, List.mem_map, List.mem_insertionSort,
      List.mem_filter, Bool.and_eq_true]
    constructor
    · rintro ⟨r, ⟨hrt, hge, hlt⟩, rfl⟩
      have hw := hwf r hrt
      exact ⟨⟨r, hrt, rfl⟩, by rwa [← hw], by rwa [← hw]⟩
    · rintro ⟨⟨r, hrt, rfl⟩, hge, hlt⟩
      have hw := hwf r hrt
      exact ⟨r, ⟨hrt, by rwa [hw], by rwa [hw]⟩, rfl⟩
  · have hs : List.Sorted weeklyRowLe
        (List.insertionSort weeklyRowLe (t.filter (fun r =>
          ymdLe (firstOfMonth m) r.week_start &&
            ymdLt r.week_start (firstOfMonth (incrementMonth m))))) :=
      List.sorted_insertionSort _ _
    simp only [getWeeklySummariesForMonth, List.pairwise_map]
    refine List.Pairwise.imp_of_mem ?_ hs
    intro a b ha hb hab
    have hwa := hwf a (List.mem_filter.mp ((List.mem_insertionSort weeklyRowLe).mp ha)).1
    have hwb := hwf b (List.mem_filter.mp ((List.mem_insertionSort weeklyRowLe).mp hb)).1
    rw [← hwa, ← hwb]
    exact hab
  · intro y
    simp [incrementMonth]
  · intro d m' h1 h2 h3 h4 h5
    obtain ⟨dy, dm, dd⟩ := d
    obtain ⟨my, mm⟩ := m'
    simp only [] at h1 h2 h3 h4 h5
    by_cases hm : mm = 12
    · subst hm
      simp only [firstOfMonth, incrementMonth, ymdLe, ymdLt, decide_eq_true_eq,
        Ym.mk.injEq, reduceIte]
      omega
    · simp only [firstOfMonth, incrementMonth, ymdLe, ymdLt, decide_eq_true_eq,
        Ym.mk.injEq, if_neg hm]
      omega

/-- Evaluation of `c6_weekly_summaries_for_month` for December 2024 with a
stored week that straddles the year boundary. -/
theorem c6_weekly_summaries_for_month_witness :
    incrementMonth ⟨2024, 12⟩ = ⟨2025, 1⟩ ∧
    sampleWeekly ∈ getWeeklySummariesForMonth sampleWeeklyTable ⟨2024, 12⟩ := by
  have h := c6_weekly_summaries_for_month sampleWeeklyTable ⟨2024, 12⟩
    (by intro r hr; simp only [sampleWeeklyTable, List.mem_singleton] at hr; subst hr; rfl)
  refine ⟨h.2.2.1 2024, ?_⟩
  exact (h.1 sampleWeekly).mpr
    ⟨⟨⟨"weekly-2024-12-30", ⟨2024, 12, 30⟩, ⟨2025, 1, 5⟩, sampleWeekly⟩,
      by simp [sampleWeeklyTable], rfl⟩, by decide, by decide⟩

/-- Claim C2: `startPipeline` invoked while the stored phase is
`extracting` answers HTTP 200 with body `started` and performs no
transition check at all, instead of returning an `InvalidTransition`
error; persisted state is left unchanged. -/
theorem c2_start_stub_eval :
    startPipeline extractingCtx = (⟨200, .started⟩, extractingCtx) := rfl

/-- Claim C8: `resetPipeline` leaves every artifact table unchanged, makes
a following status read report phase `idle`, is idempotent, and answers
`reset`. -/
theorem c8_reset_clears_state_preserves_artifacts (c : CoordinatorCtx) :
    (resetPipeline c).2.db = c.db ∧
    (resetPipeline c).1 = ⟨200, .reset⟩ ∧
    reportedPhase (getStatus (resetPipeline c).2).1.body = some .idle ∧
    resetPipeline ((resetPipeline c).2) = resetPipeline c :=
  ⟨rfl, rfl, rfl, rfl⟩

/-- Claim C10: a status read before any pipeline state was ever stored
succeeds with HTTP 200, reports phase `idle`, and changes nothing. -/
theorem c10_status_fresh_idle (db : D1Tables) :
    (getStatus ⟨⟨none⟩, db⟩).1.status = 200 ∧
    reportedPhase (getStatus ⟨⟨none⟩, db⟩).1.body = some .idle ∧
    (getStatus ⟨⟨none⟩, db⟩).2 = ⟨⟨none⟩, db⟩ :=
  ⟨rfl, rfl, rfl⟩

/-- Claim C4: `handleExtraction` is a stub; on any job it leaves its whole
environment (database and cache) unchanged, only logs, and never rejects
anything, so no validation of LLM output occurs. -/
theorem c4_extractor_stub_eval :
    handleExtraction c4Job emptyWorkerEnv =
      (emptyWorkerEnv, ["Processing extraction for 2025-03-04"]) := rfl

/-- Claim C9, amended: manifest entries appear in non-decreasing date
order, and their dates are free of duplicates provided no two processed
input files yield the same date (the script does not deduplicate). -/
theorem c9_manifest_sorted (files : List SourceFile) :
    List.Pairwise (fun a b : ManifestEntry => stringLe a.date b.date = true)
      (buildManifestEntries files) ∧
    (((files.filterMap processEntry).map (fun e => e.date)).Nodup →
      ((buildManifestEntries files).map (fun e => e.date)).Nodup) := by
  constructor
  · have hs : List.Sorted entryDateLe
        (List.insertionSort entryDateLe (files.filterMap processEntry)) :=
      List.sorted_insertionSort _ _
    simp only [buildManifestEntries, List.pairwise_map]
    exact List.Pairwise.imp (fun hab => hab) hs
  · intro hnd
    have hperm := List.perm_insertionSort entryDateLe (files.filterMap processEntry)
    have hnd2 : ((List.insertionSort entryDateLe (files.filterMap processEntry)).map
        (fun e => e.date)).Nodup := ((hperm.map (fun e => e.date)).nodup_iff).mpr hnd
    simp only [buildManifestEntries, List.map_map]
    simpa [Function.comp] using hnd2

/-- Evaluation of `c9_manifest_sorted` on two files with distinct dates. -/
theorem c9_manifest_sorted_witness :
    ((buildManifestEntries distinctDateFiles).map (fun e => e.date)).Nodup :=
  (c9_manifest_sorted distinctDateFiles).2 (by decide)

/-- Claim C9 as stated is false: two input files from different folders
with the same filename date both enter the manifest, which then contains
two entries with the same date. -/
theorem c9_counterexample :
    (buildManifestEntries dupDateFiles).map (fun e => e.date) =
      ["2024-05-05", "2024-05-05"] ∧
    ¬((buildManifestEntries dupDateFiles).map (fun e => e.date)).Nodup := by decide

end YearlyReview
